import Mathlib

/-!
Shallow embedding of the inline-sdk TypeScript client (dnl-fm/inline-sdk).

The embedding covers:
* the error taxonomy (`src/errors.ts`, reproduced verbatim in the README),
* the status-code dispatch and catch clause of `InlineClient.request`
  (`src/client.ts`),
* the request builders for `publish`, `getMessage`, `retryMessage`,
  `getErrorsByCode`, `getMessageErrors` and friends (`src/client.ts`),
* the validators of `src/validators.ts` / `src/schemas.ts`, including a model
  of the external zod string checks they delegate to (`z.string().regex`,
  `z.string().datetime()`, `z.object` with default unknown-key stripping).

JavaScript machine integers are modelled as `Int`; `parseInt` may produce
`NaN`, modelled by `JsNumber.nan`.  JSON values are modelled by the inductive
type `JsonValue`; the extra constructor `JsonValue.jsUndefined` models the
JavaScript `undefined` produced by reading an absent property.
-/

namespace InlineSdk

/-- JSON-like value domain.  `jsUndefined` models JavaScript `undefined` (the result
of reading an absent object property); plain JSON never contains it. -/
inductive JsonValue where
  | null : JsonValue
  | jsUndefined : JsonValue
  | bool : Bool → JsonValue
  | num : Int → JsonValue
  | str : String → JsonValue
  | arr : List JsonValue → JsonValue
  | obj : List (String × JsonValue) → JsonValue
  deriving Repr

/-- A JavaScript number as produced by `parseInt`: either an integer or NaN. -/
inductive JsNumber where
  | nan : JsNumber
  | int : Int → JsNumber
  deriving Repr, DecidableEq

/-- JavaScript whitespace characters skipped by `parseInt`. -/
def isJsSpace (c : Char) : Bool :=
  c.toNat == 32 || c.toNat == 9 || c.toNat == 10 || c.toNat == 13 ||
  c.toNat == 11 || c.toNat == 12

/-- Is `c` an ASCII decimal digit? -/
def isDigitChar (c : Char) : Bool :=
  48 ≤ c.toNat && c.toNat ≤ 57

/-- Numeric value of an ASCII digit character. -/
def dval (c : Char) : Nat := c.toNat - 48

/-- Accumulate the value of a digit-character list (most significant first). -/
def digitsVal (cs : List Char) : Nat :=
  cs.foldl (fun acc c => acc * 10 + dval c) 0

/-- Model of JavaScript `parseInt(s, 10)`: skip leading whitespace, read an
optional sign, then the longest prefix of decimal digits; NaN if there is no
digit; trailing garbage is ignored. -/
def parseIntJS (s : String) : JsNumber :=
  let cs := s.data.dropWhile isJsSpace
  let (sign, cs') : Int × List Char :=
    match cs with
    | '-' :: t => (-1, t)
    | '+' :: t => (1, t)
    | _ => (1, cs)
  let ds := cs'.takeWhile isDigitChar
  if ds.isEmpty then .nan else .int (sign * (digitsVal ds : Int))

/-- The client's typed error taxonomy (`src/errors.ts`).  Each constructor
records the data its TypeScript class carries beyond the fixed `code`/`status`:
`rateLimitError` carries the optional parsed Retry-After value, `serverError`
its actual status, `apiError` its status and raw response text. -/
inductive InlineErr where
  | validationError (message : String) : InlineErr
  | authenticationError (message : String) : InlineErr
  | authorizationError (message : String) : InlineErr
  | notFoundError (message : String) : InlineErr
  | rateLimitError (message : String) (retryAfter : Option JsNumber) : InlineErr
  | serverError (message : String) (status : Nat) : InlineErr
  | apiError (message : String) (status : Nat) (response : String) : InlineErr
  | networkError (message : String) : InlineErr
  deriving Repr, DecidableEq

/-- An HTTP response as seen by `InlineClient.request`: status code, the
`Retry-After` header (`none` = absent, as `headers.get` returns `null`), the
raw body text (`response.text()`), the status text, and the parsed JSON body
(`response.json()`, consulted only on 2xx). -/
structure HttpResponse where
  status : Nat
  retryAfterHeader : Option String := none
  bodyText : String := ""
  statusText : String := ""
  bodyJson : JsonValue := .obj []
  deriving Repr

/-- `response.ok` in the fetch API: status in [200, 300). -/
def respOk (r : HttpResponse) : Bool :=
  200 ≤ r.status && r.status < 300

/-- The Retry-After value stored in a `RateLimitError`:
`retryAfter ? parseInt(retryAfter, 10) : undefined` where `retryAfter` is the
header string or `null`; the empty string is falsy. -/
def retryAfterValue (h : Option String) : Option JsNumber :=
  match h with
  | none => none
  | some s => if s = "" then none else some (parseIntJS s)

/-- `text || fallback` for strings: JavaScript's falsy-or. -/
def strOr (text fallback : String) : String :=
  if text = "" then fallback else text

/-- Status-code dispatch of `InlineClient.request` (client.ts, lines 143-183):
checks 401, 403, 404, 429, >= 500, then `!response.ok`, in that order; a 2xx
response yields the parsed JSON body. -/
def classifyResponse (r : HttpResponse) : Except InlineErr JsonValue :=
  if r.status == 401 then
    .error (.authenticationError "Invalid or expired token")
  else if r.status == 403 then
    .error (.authorizationError "Not authorized to access this resource")
  else if r.status == 404 then
    .error (.notFoundError "Resource not found")
  else if r.status == 429 then
    .error (.rateLimitError "Rate limited" (retryAfterValue r.retryAfterHeader))
  else if 500 ≤ r.status then
    .error (.serverError ("Server error: " ++ strOr r.bodyText r.statusText) r.status)
  else if !(respOk r) then
    .error (.apiError ("API error: " ++ strOr r.bodyText r.statusText) r.status r.bodyText)
  else
    .ok r.bodyJson

/-- A value thrown inside the `try` block of `InlineClient.request`: one of the
client's own typed errors, a `TypeError` (what `fetch` throws on network
failure in the runtimes the tests model), some other `Error` (name and
message), or a non-Error value. -/
inductive JsThrown where
  | inlineErr (e : InlineErr) : JsThrown
  | typeError (message : String) : JsThrown
  | otherError (name message : String) : JsThrown
  | nonError (v : JsonValue) : JsThrown
  deriving Repr

/-- The catch clause of `InlineClient.request` (client.ts, lines 184-194):
an `InlineError` is rethrown unchanged; a `TypeError` is wrapped as
`NetworkError("Network error")`; anything else is rethrown unchanged. -/
def classifyException (e : JsThrown) : JsThrown :=
  match e with
  | .inlineErr err => .inlineErr err
  | .typeError _ => .inlineErr (.networkError "Network error")
  | .otherError n m => .otherError n m
  | .nonError v => .nonError v

/-! ### Validators (`src/validators.ts`, `src/schemas.ts`) -/

/-- Character class `[0-9A-HJKMNP-TV-Z]` of the message-ID regex: digits and
uppercase letters excluding I, L, O, U (restricted Crockford alphabet). -/
def isUlidChar (c : Char) : Bool :=
  ('0' ≤ c && c ≤ '9') || ('A' ≤ c && c ≤ 'H') || c == 'J' || c == 'K' ||
  c == 'M' || c == 'N' || ('P' ≤ c && c ≤ 'T') || ('V' ≤ c && c ≤ 'Z')

/-- Matcher for the regex `^message_[0-7][0-9A-HJKMNP-TV-Z]{25}$` on a
character list: the literal prefix, one character in `[0-7]`, then exactly 25
characters of the restricted alphabet. -/
def msgIdChars : List Char → Bool
  | 'm' :: 'e' :: 's' :: 's' :: 'a' :: 'g' :: 'e' :: '_' :: c0 :: rest =>
      ('0' ≤ c0 && c0 ≤ '7') && rest.length == 25 && rest.all isUlidChar
  | _ => false

/-- `parseMessageId` / the `MessageId` schema as an acceptance predicate:
`true` iff the string matches `^message_[0-7][0-9A-HJKMNP-TV-Z]{25}$`
(`parseMessageId` throws exactly when this is `false`). -/
def parseMessageIdOk (s : String) : Bool := msgIdChars s.data

/-- Gregorian leap-year rule, as encoded by the digit alternation in zod's
datetime regex (`y % 4 == 0` and not a non-leap century). -/
def isLeapYear (y : Nat) : Bool :=
  y % 4 == 0 && (y % 100 != 0 || y % 400 == 0)

/-- Days in a month as admitted by zod's datetime regex. -/
def monthDays (y m : Nat) : Nat :=
  if m == 2 then (if isLeapYear y then 29 else 28)
  else if m == 4 || m == 6 || m == 9 || m == 11 then 30
  else 31

/-- After the first fractional digit: zero or more digits followed by the
final `Z`. -/
def fracTailChars : List Char → Bool
  | [] => false
  | c :: rest => if c == 'Z' then rest.isEmpty else isDigitChar c && fracTailChars rest

/-- Tail of the datetime after `HH:MM:SS`: either the bare `Z` or a dot, at
least one fractional digit, then `Z` (regex `(\.\d+)?Z$`). -/
def zodTailChars : List Char → Bool
  | ['Z'] => true
  | '.' :: c :: rest => isDigitChar c && fracTailChars rest
  | _ => false

/-- Model of the external zod v3 `z.string().datetime()` check (default
options: UTC `Z` mandatory, no offsets, any sub-second precision), used by
`validateTimestamp` and the `ISODateTime` schema.  zod's regex requires
`YYYY-MM-DDTHH:MM:SS(.fff...)Z` with a valid calendar date (month 01-12, day
within the month, February 29 only in leap years), hour 00-23, minute and
second 00-59; the regex's leap-year digit alternation is expressed here by
the equivalent numeric condition. -/
def zodDatetimeChars : List Char → Bool
  | y1 :: y2 :: y3 :: y4 :: '-' :: m1 :: m2 :: '-' :: d1 :: d2 :: 'T' ::
    h1 :: h2 :: ':' :: i1 :: i2 :: ':' :: s1 :: s2 :: rest =>
      isDigitChar y1 && isDigitChar y2 && isDigitChar y3 && isDigitChar y4 &&
      isDigitChar m1 && isDigitChar m2 && isDigitChar d1 && isDigitChar d2 &&
      isDigitChar h1 && isDigitChar h2 && isDigitChar i1 && isDigitChar i2 &&
      isDigitChar s1 && isDigitChar s2 &&
      (let y := dval y1 * 1000 + dval y2 * 100 + dval y3 * 10 + dval y4
       let mo := dval m1 * 10 + dval m2
       let d := dval d1 * 10 + dval d2
       decide (1 ≤ mo) && decide (mo ≤ 12) &&
       decide (1 ≤ d) && decide (d ≤ monthDays y mo) &&
       decide (dval h1 * 10 + dval h2 ≤ 23) &&
       decide (dval i1 * 10 + dval i2 ≤ 59) &&
       decide (dval s1 * 10 + dval s2 ≤ 59)) &&
      zodTailChars rest
  | _ => false

/-- `validateTimestamp` / the `ISODateTime` schema as an acceptance
predicate (`validateTimestamp` throws exactly when this is `false`). -/
def isZodDatetime (s : String) : Bool := zodDatetimeChars s.data

/-- After the scheme's `:`: the literal `//` and a nonempty remainder. -/
def urlTail : List Char → Bool
  | '/' :: '/' :: rest => !rest.isEmpty
  | _ => false

/-- Scan an alphabetic scheme (at least one letter, tracked by `seen`), then
`://` and a nonempty remainder. -/
def urlScan : Bool → List Char → Bool
  | _, [] => false
  | seen, c :: rest =>
      if c == ':' then seen && urlTail rest
      else c.isAlpha && urlScan true rest

/-- Modelled approximation of the external zod `z.string().url()` check
(zod defers to the host's WHATWG URL parser): a nonempty alphabetic scheme,
the literal `://`, and a nonempty remainder.  No claim settled here depends
on the exact URL grammar, only on this being a pure predicate. -/
def isUrlLike (s : String) : Bool :=
  urlScan false s.data

/-! ### Request builders (`src/client.ts`) -/

/-- Characters that `encodeURIComponent` leaves unescaped:
`A-Z a-z 0-9 - _ . ! ~ * ' ( )`. -/
def isUriUnreserved (c : Char) : Bool :=
  let n := c.toNat
  (65 ≤ n && n ≤ 90) || (97 ≤ n && n ≤ 122) || (48 ≤ n && n ≤ 57) ||
  n == 45 || n == 95 || n == 46 || n == 33 || n == 126 || n == 42 ||
  n == 39 || n == 40 || n == 41

/-- Uppercase hexadecimal digit for `0 ≤ n < 16`. -/
def hexDigitChar (n : Nat) : Char :=
  if n < 10 then Char.ofNat (48 + n) else Char.ofNat (55 + n)

/-- UTF-8 encoding of a single code point as a byte list. -/
def utf8Bytes (c : Char) : List Nat :=
  let n := c.toNat
  if n < 128 then [n]
  else if n < 2048 then [192 + n / 64, 128 + n % 64]
  else if n < 65536 then [224 + n / 4096, 128 + (n / 64) % 64, 128 + n % 64]
  else [240 + n / 262144, 128 + (n / 4096) % 64, 128 + (n / 64) % 64, 128 + n % 64]

/-- `%XX` escape (uppercase hex) of one byte. -/
def percentEncodeByte (b : Nat) : List Char :=
  ['%', hexDigitChar (b / 16), hexDigitChar (b % 16)]

/-- JavaScript `encodeURIComponent`: unreserved characters pass through,
every other character is replaced by the `%XX` escapes of its UTF-8 bytes. -/
def encodeURIComponent (s : String) : String :=
  String.mk (s.data.flatMap fun c =>
    if isUriUnreserved c then [c] else (utf8Bytes c).flatMap percentEncodeByte)

/-- The fully-built HTTP request a client operation hands to the transport:
method, path, query parameters (appended to the URL by `request`), and the
optional JSON body. -/
structure RequestDescriptor where
  method : String
  path : String
  query : List (String × String) := []
  body : Option (List (String × JsonValue)) := none
  deriving Repr

/-- `PublishOptions` (`src/types.ts`): all fields optional. -/
structure PublishOptions where
  method : Option String := none
  delay : Option String := none
  notBefore : Option String := none
  timezone : Option String := none
  headers : Option (List (String × String)) := none
  deriving Repr

/-- JavaScript object assignment `o[k] = v` on an insertion-ordered object:
overwrite in place if the key exists, append otherwise. -/
def setEntry {α : Type} : List (String × α) → String → α → List (String × α)
  | [], k, v => [(k, v)]
  | (k', v') :: rest, k, v =>
      if k' == k then (k', v) :: rest else (k', v') :: setEntry rest k v

/-- JavaScript `toUpperCase` (ASCII range, which covers HTTP method names):
uppercase every character. -/
def jsToUpper (s : String) : String :=
  String.mk (s.data.map Char.toUpper)

/-- Truthiness of an optional string option (`if (options?.x)`): present and
nonempty. -/
def optTruthy (o : Option String) : Bool :=
  match o with
  | some s => !(s == "")
  | none => false

/-- The repeated `if (options?.x) { target[key] = f(options.x); }` pattern of
`publish`: assign only when the optional string is truthy. -/
def assignOpt {α : Type} (l : List (String × α)) (key : String) (o : Option String)
    (f : String → α) : List (String × α) :=
  match o with
  | some s => if s = "" then l else setEntry l key (f s)
  | none => l

/-- Key lookup in an insertion-ordered object (JS `o[k]` on own keys). -/
def lookupEntry {α : Type} (l : List (String × α)) (k : String) : Option α :=
  (l.find? (fun kv => kv.1 == k)).map (·.2)

/-- Does the object have key `k`? -/
def hasKey {α : Type} (l : List (String × α)) (k : String) : Bool :=
  l.any (fun kv => kv.1 == k)

/-- `InlineClient.publish` up to the point the request is handed to
`this.request` (client.ts, lines 260-341): empty-URL guard, method selection
(`options?.method ? options.method.toUpperCase() : "POST"`), the GET branch
encoding scheduling and forwarded headers as `Queue-*` query parameters, and
the non-GET branch spreading the payload into the body and then assigning the
`Queue-*` fields. -/
def publish (callbackUrl : String) (payload : List (String × JsonValue))
    (options : Option PublishOptions) : Except InlineErr RequestDescriptor :=
  if callbackUrl = "" then .error (.validationError "callbackUrl is required")
  else
    let encodedUrl := encodeURIComponent callbackUrl
    let methodOpt := options.bind (·.method)
    let httpMethod :=
      match methodOpt with
      | some m => if m = "" then "POST" else jsToUpper m
      | none => "POST"
    let methodGiven := optTruthy methodOpt
    if httpMethod = "GET" then
      let q : List (String × String) := []
      let q := assignOpt q "Queue-Delay" (options.bind (·.delay)) id
      let q := assignOpt q "Queue-notBefore" (options.bind (·.notBefore)) id
      let q := assignOpt q "Queue-timezone" (options.bind (·.timezone)) id
      let q := if methodGiven then setEntry q "Queue-Method" httpMethod else q
      let q := match options.bind (·.headers) with
        | some hs => hs.foldl (fun acc kv => setEntry acc ("Queue-Forward-" ++ kv.1) kv.2) q
        | none => q
      .ok { method := "GET", path := "/publish/" ++ encodedUrl, query := q, body := none }
    else
      let b := payload
      let b := match options.bind (·.headers) with
        | some hs => hs.foldl (fun acc kv => setEntry acc ("Queue-Forward-" ++ kv.1) (.str kv.2)) b
        | none => b
      let b := assignOpt b "Queue-Delay" (options.bind (·.delay)) JsonValue.str
      let b := assignOpt b "Queue-notBefore" (options.bind (·.notBefore)) JsonValue.str
      let b := assignOpt b "Queue-timezone" (options.bind (·.timezone)) JsonValue.str
      let b := if methodGiven then setEntry b "Queue-Method" (.str httpMethod) else b
      .ok { method := httpMethod, path := "/publish/" ++ encodedUrl, query := [], body := some b }

/-- `InlineClient.getMessage`: empty-id guard, then `GET /messages/{id}`. -/
def getMessage (messageId : String) : Except InlineErr RequestDescriptor :=
  if messageId = "" then .error (.validationError "messageId is required")
  else .ok { method := "GET", path := "/messages/" ++ messageId }

/-- `InlineClient.getMessageTimeline`: empty-id guard, then
`GET /messages/{id}/timeline`. -/
def getMessageTimeline (messageId : String) : Except InlineErr RequestDescriptor :=
  if messageId = "" then .error (.validationError "messageId is required")
  else .ok { method := "GET", path := "/messages/" ++ messageId ++ "/timeline" }

/-- `InlineClient.retryMessage`: empty-id guard, then
`POST /messages/{id}/retry`. -/
def retryMessage (messageId : String) : Except InlineErr RequestDescriptor :=
  if messageId = "" then .error (.validationError "messageId is required")
  else .ok { method := "POST", path := "/messages/" ++ messageId ++ "/retry" }

/-- `InlineClient.getErrorsByCode` request stage: empty-code guard, then
`GET /errors/by-code/{code}`. -/
def getErrorsByCode (code : String) : Except InlineErr RequestDescriptor :=
  if code = "" then .error (.validationError "code is required")
  else .ok { method := "GET", path := "/errors/by-code/" ++ code }

/-- `InlineClient.getMessageErrors` request stage: empty-id guard, then
`GET /errors/message/{id}`. -/
def getMessageErrors (messageId : String) : Except InlineErr RequestDescriptor :=
  if messageId = "" then .error (.validationError "messageId is required")
  else .ok { method := "GET", path := "/errors/message/" ++ messageId }

/-- `InlineClient.getHealth`: `GET /health`, no validation. -/
def getHealth : Except InlineErr RequestDescriptor :=
  .ok { method := "GET", path := "/health" }

/-- Modelled from the spec: `cancelMessage` appears in the spec's endpoint
table (`DELETE /messages/{id}`) and in the repository's tests, but the
`client.ts` excerpt under `src/` does not include its implementation.
Modelled with the same falsy-id `ValidationError` guard every sibling
operation uses, then `DELETE /messages/{id}`. -/
def cancelMessage (messageId : String) : Except InlineErr RequestDescriptor :=
  if messageId = "" then .error (.validationError "messageId is required")
  else .ok { method := "DELETE", path := "/messages/" ++ messageId }

/-- Number of calls the injected transport receives for one operation
invocation: zero when the operation throws before dispatch, one otherwise
(`request` performs exactly one fetch). -/
def transportCalls (build : Except InlineErr RequestDescriptor) : Nat :=
  match build with
  | .error _ => 0
  | .ok _ => 1

/-- Run an operation against a given HTTP response: a pre-network failure
propagates; otherwise the response is classified by `request`. -/
def runRequest (build : Except InlineErr RequestDescriptor)
    (resp : HttpResponse) : Except InlineErr JsonValue :=
  match build with
  | .error e => .error e
  | .ok _ => classifyResponse resp

/-- JavaScript property access `v[k]` on a parsed JSON value: the field's
value, or `undefined` when absent or when `v` is not an object. -/
def jsField (v : JsonValue) (k : String) : JsonValue :=
  match v with
  | .obj fields =>
      match fields.find? (fun kv => kv.1 == k) with
      | some kv => kv.2
      | none => .jsUndefined
  | _ => .jsUndefined

/-- `getMessage` end to end: the parsed body is returned as-is. -/
def getMessageRun (messageId : String) (resp : HttpResponse) :
    Except InlineErr JsonValue :=
  runRequest (getMessage messageId) resp

/-- `getHealth` end to end: the parsed body is returned as-is. -/
def getHealthRun (resp : HttpResponse) : Except InlineErr JsonValue :=
  runRequest getHealth resp

/-- `retryMessage` end to end: the parsed body is returned as-is. -/
def retryMessageRun (messageId : String) (resp : HttpResponse) :
    Except InlineErr JsonValue :=
  runRequest (retryMessage messageId) resp

/-- `getErrorsByCode` end to end: on success the method returns
`response.errors` (client.ts, line 607), discarding the rest of the body. -/
def getErrorsByCodeRun (code : String) (resp : HttpResponse) :
    Except InlineErr JsonValue :=
  (runRequest (getErrorsByCode code) resp).map (fun b => jsField b "errors")

/-- `getMessageErrors` end to end: on success the method returns
`response.errors` (client.ts, line 635), discarding the rest of the body. -/
def getMessageErrorsRun (messageId : String) (resp : HttpResponse) :
    Except InlineErr JsonValue :=
  (runRequest (getMessageErrors messageId) resp).map (fun b => jsField b "errors")

/-! ### zod object schemas (`src/schemas.ts`) -/

/-- One field of a zod object schema: its key, whether it is required, and
its parser (a plain check for scalar fields; a full object parse — which
strips unknown keys — for the nested `CallbackErrorSchema`). -/
structure FieldSpec where
  key : String
  required : Bool
  parse : JsonValue → Option JsonValue

/-- A pure zod check as a parser: accept the value unchanged or fail.
(JSON bodies never contain `undefined`, so a present key always holds a
proper JSON value.) -/
def checkP (p : JsonValue → Bool) : JsonValue → Option JsonValue :=
  fun v => if p v then some v else none

/-- Parse one field of an object per zod v3 semantics: a missing required
key fails, a missing optional key contributes nothing, a present key must
parse and contributes the parsed value under its key. -/
def runField (fields : List (String × JsonValue)) (fs : FieldSpec) :
    Option (List (String × JsonValue)) :=
  match lookupEntry fields fs.key with
  | none => if fs.required then none else some []
  | some v => (fs.parse v).map (fun w => [(fs.key, w)])

/-- `z.object({...}).safeParse` with the default `strip` policy: a
non-object fails; otherwise every schema field is parsed in declaration
order and the output object is rebuilt from the parsed fields only, so
unknown input keys are stripped. -/
def runObject (specs : List FieldSpec) (v : JsonValue) : Option JsonValue :=
  match v with
  | .obj fields => (specs.mapM (runField fields)).map (fun rs => .obj rs.flatten)
  | _ => none

/-- `z.string()`. -/
def isStr : JsonValue → Bool
  | .str _ => true
  | _ => false

/-- `z.number().int()` (JSON numbers are modelled as integers). -/
def isNum : JsonValue → Bool
  | .num _ => true
  | _ => false

/-- `z.number().int().nonnegative()`. -/
def isNumNonneg : JsonValue → Bool
  | .num n => decide (0 ≤ n)
  | _ => false

/-- `z.record(z.unknown())`: any object. -/
def isObjRecord : JsonValue → Bool
  | .obj _ => true
  | _ => false

/-- `z.record(z.string())`: an object whose values are all strings. -/
def isStrRecord : JsonValue → Bool
  | .obj fields => fields.all (fun kv => isStr kv.2)
  | _ => false

/-- The `MessageId` schema applied to a JSON value. -/
def isMessageIdV : JsonValue → Bool
  | .str s => parseMessageIdOk s
  | _ => false

/-- The `ISODateTime` schema applied to a JSON value. -/
def isDatetimeV : JsonValue → Bool
  | .str s => isZodDatetime s
  | _ => false

/-- `z.string().url()` applied to a JSON value. -/
def isUrlV : JsonValue → Bool
  | .str s => isUrlLike s
  | _ => false

/-- `z.enum(vals)` applied to a JSON value. -/
def isEnumV (vals : List String) : JsonValue → Bool :=
  fun v =>
    match v with
    | .str s => vals.contains s
    | _ => false

/-- The message-status enum of `MessageResponseSchema`. -/
def statusEnum : List String :=
  ["pending", "processing", "completed", "failed", "dead_letter"]

/-- The `ErrorCodeSchema` enum. -/
def errorCodeEnum : List String :=
  ["HTTP_4XX", "HTTP_5XX", "TIMEOUT", "ECONNREFUSED", "ECONNRESET", "ENOTFOUND",
   "DNS_FAILURE", "NETWORK_ERROR", "UNKNOWN"]

/-- `CallbackErrorSchema` (schemas.ts): field-by-field translation. -/
def CallbackErrorSpecs : List FieldSpec :=
  [⟨"id", true, checkP isStr⟩,
   ⟨"message_id", true, checkP isMessageIdV⟩,
   ⟨"error_code", true, checkP (isEnumV errorCodeEnum)⟩,
   ⟨"error_message", true, checkP isStr⟩,
   ⟨"http_status_code", false, checkP isNum⟩,
   ⟨"created_at", true, checkP isDatetimeV⟩,
   ⟨"attempt_number", false, checkP isNum⟩,
   ⟨"duration_ms", false, checkP isNum⟩]

/-- `CallbackErrorSchema.safeParse`. -/
def parseCallbackError : JsonValue → Option JsonValue :=
  runObject CallbackErrorSpecs

/-- `MessageResponseSchema` (schemas.ts): field-by-field translation; the
optional `last_error` field is parsed by the nested `CallbackErrorSchema`. -/
def MessageResponseSpecs : List FieldSpec :=
  [⟨"id", true, checkP isMessageIdV⟩,
   ⟨"callback_url", true, checkP isUrlV⟩,
   ⟨"payload", true, checkP isObjRecord⟩,
   ⟨"callback_headers", true, checkP isStrRecord⟩,
   ⟨"status", true, checkP (isEnumV statusEnum)⟩,
   ⟨"created_at", true, checkP isDatetimeV⟩,
   ⟨"updated_at", true, checkP isDatetimeV⟩,
   ⟨"scheduled_at", false, checkP isDatetimeV⟩,
   ⟨"retry_count", true, checkP isNumNonneg⟩,
   ⟨"max_retries", true, checkP isNumNonneg⟩,
   ⟨"next_retry_at", false, checkP isDatetimeV⟩,
   ⟨"last_error", false, parseCallbackError⟩,
   ⟨"timezone", false, checkP isStr⟩,
   ⟨"attempt_number", false, checkP isNum⟩,
   ⟨"event_count", false, checkP isNumNonneg⟩]

/-- `validateMessageResponse` (validators.ts): `MessageResponseSchema.safeParse`,
returning the validated value (`none` models the thrown aggregate error). -/
def validateMessageResponse : JsonValue → Option JsonValue :=
  runObject MessageResponseSpecs

/-- Two-digit zero-padded decimal rendering (`MM`, `DD`, `HH`, ...). -/
def pad2 (n : Nat) : List Char :=
  [Char.ofNat (48 + n / 10), Char.ofNat (48 + n % 10)]

/-- Four-digit zero-padded decimal rendering (`YYYY`). -/
def pad4 (n : Nat) : List Char :=
  [Char.ofNat (48 + n / 1000), Char.ofNat (48 + (n / 100) % 10),
   Char.ofNat (48 + (n / 10) % 10), Char.ofNat (48 + n % 10)]

/-- A strict ISO-8601 UTC timestamp assembled from calendar components, with
an optional fractional-second digit list: the shape
`YYYY-MM-DDTHH:MM:SS[.fff]Z` the spec describes. -/
def buildIso (y mo d h mi se : Nat) (frac : Option (List Char)) : String :=
  String.mk (pad4 y ++ '-' :: pad2 mo ++ '-' :: pad2 d ++ 'T' :: pad2 h ++
    ':' :: pad2 mi ++ ':' :: pad2 se ++
    (match frac with
     | none => ['Z']
     | some ds => '.' :: ds ++ ['Z']))

/-- A field parser is stable when re-parsing its own output succeeds and is
the identity. -/
def StableParse (p : JsonValue → Option JsonValue) : Prop :=
  ∀ v w, p v = some w → p w = some w

/-- Shape of a successful `runField` result: empty (optional, absent key) or
a single entry under the spec's key whose value re-parses to itself. -/
def GoodRes (fs : FieldSpec) (r : List (String × JsonValue)) : Prop :=
  (r = [] ∧ fs.required = false) ∨ ∃ w, r = [(fs.key, w)] ∧ fs.parse w = some w

/-- A complete valid `MessageResponse` record, fields in schema order. -/
def sampleMessageFields : List (String × JsonValue) :=
  [("id", .str "message_000004QYYDCF9PHB9C6VWVHZEZ"),
   ("callback_url", .str "https://example.com/webhook"),
   ("payload", .obj []),
   ("callback_headers", .obj []),
   ("status", .str "pending"),
   ("created_at", .str "2025-10-23T10:30:00.000Z"),
   ("updated_at", .str "2025-10-23T10:30:00.000Z"),
   ("retry_count", .num 0),
   ("max_retries", .num 3)]


/-! ### Lemmas about ordered-object assignment -/

theorem lookup_setEntry_self {α : Type} (l : List (String × α)) (k : String) (v : α) :
    lookupEntry (setEntry l k v) k = some v := by
  induction l with
  | nil => simp [setEntry, lookupEntry]
  | cons kv rest ih =>
      rcases kv with ⟨k', v'⟩
      by_cases h : k' == k
      · simp [setEntry, lookupEntry, h]
      · simp only [setEntry, h, if_false, Bool.false_eq_true]
        simpa [lookupEntry, h] using ih

theorem lookup_setEntry_ne {α : Type} (l : List (String × α)) (k k' : String) (v : α)
    (h : k' ≠ k) : lookupEntry (setEntry l k' v) k = lookupEntry l k := by
  induction l with
  | nil => simp [setEntry, lookupEntry, h]
  | cons kv rest ih =>
      rcases kv with ⟨a, b⟩
      by_cases ha : a == k'
      · have hak : (a == k) = false := by
          simp only [beq_iff_eq] at ha
          subst ha
          simp [h]
        simp [setEntry, lookupEntry, ha, hak]
      · simp only [setEntry, ha, if_false, Bool.false_eq_true]
        by_cases hak : a == k
        · simp [lookupEntry, hak]
        · simpa [lookupEntry, hak] using ih

theorem lookup_assignOpt_ne {α : Type} (l : List (String × α)) (key : String)
    (o : Option String) (f : String → α) (k : String) (h : key ≠ k) :
    lookupEntry (assignOpt l key o f) k = lookupEntry l k := by
  cases o with
  | none => rfl
  | some s =>
      by_cases hs : s = ""
      · simp [assignOpt, hs]
      · simp [assignOpt, hs, lookup_setEntry_ne _ _ _ _ h]

theorem lookup_assignOpt_self {α : Type} (l : List (String × α)) (key s : String)
    (f : String → α) (hs : s ≠ "") :
    lookupEntry (assignOpt l key (some s) f) key = some (f s) := by
  simp [assignOpt, hs, lookup_setEntry_self]

theorem lookup_ite_setEntry_ne {α : Type} (c : Bool) (l : List (String × α))
    (k k' : String) (v : α) (h : k' ≠ k) :
    lookupEntry (if c then setEntry l k' v else l) k = lookupEntry l k := by
  cases c
  · rfl
  · simp [lookup_setEntry_ne _ _ _ _ h]

theorem hasKey_setEntry {α : Type} (l : List (String × α)) (k' : String) (v : α)
    (k : String) : hasKey (setEntry l k' v) k = (hasKey l k || (k' == k)) := by
  induction l with
  | nil => simp [setEntry, hasKey]
  | cons kv rest ih =>
      rcases kv with ⟨a, b⟩
      by_cases ha : a == k'
      · have h2 : (a == k) = (k' == k) := by
          simp only [beq_iff_eq] at ha
          subst ha
          rfl

        simp only [setEntry, if_pos ha, hasKey, List.any_cons] at *
        rw [h2]
        cases k' == k <;> cases rest.any (fun kv => kv.1 == k) <;> simp
      · simp only [setEntry, if_neg ha, hasKey, List.any_cons] at *
        rw [ih, Bool.or_assoc]

theorem hasKey_foldl_setEntry {α β : Type} (hs : List β) (keyf : β → String)
    (valf : β → α) (l : List (String × α)) (k : String) (h : hasKey l k = true) :
    hasKey (hs.foldl (fun acc kv => setEntry acc (keyf kv) (valf kv)) l) k = true := by
  induction hs generalizing l with
  | nil => exact h
  | cons x xs ih =>
      simp only [List.foldl_cons]
      exact ih _ (by rw [hasKey_setEntry, h, Bool.true_or])

/-- `"Queue-Forward-" ++ k` never collides with a fixed reserved key `t`
whose seventh character is not `F`. -/
theorem queueForward_ne (k t : String) (ht : t.data.drop 6 ≠ 'F' :: (t.data.drop 7)) :
    ("Queue-Forward-" ++ k) ≠ t := by
  intro h
  have hd := congrArg String.data h
  rw [String.data_append] at hd
  rw [show "Queue-Forward-".data =
      ['Q','u','e','u','e','-','F','o','r','w','a','r','d','-'] from rfl] at hd
  apply ht
  rw [← hd]
  rfl

theorem queueForward_ne_delay (k : String) : ("Queue-Forward-" ++ k) ≠ "Queue-Delay" :=
  queueForward_ne k _ (by decide)

theorem queueForward_ne_notBefore (k : String) :
    ("Queue-Forward-" ++ k) ≠ "Queue-notBefore" :=
  queueForward_ne k _ (by decide)

theorem queueForward_ne_timezone (k : String) :
    ("Queue-Forward-" ++ k) ≠ "Queue-timezone" :=
  queueForward_ne k _ (by decide)

theorem queueForward_ne_method (k : String) : ("Queue-Forward-" ++ k) ≠ "Queue-Method" :=
  queueForward_ne k _ (by decide)

/-! ### Shared lemmas about `classifyResponse` -/

theorem classifyResponse_429 (r : HttpResponse) (h : r.status = 429) :
    classifyResponse r =
      .error (.rateLimitError "Rate limited" (retryAfterValue r.retryAfterHeader)) := by
  simp only [classifyResponse, beq_iff_eq]
  rw [if_neg (by omega), if_neg (by omega), if_neg (by omega), if_pos h]

theorem classifyResponse_ok (r : HttpResponse) (h : 200 ≤ r.status ∧ r.status < 300) :
    classifyResponse r = .ok r.bodyJson := by
  simp only [classifyResponse, respOk, beq_iff_eq, Bool.not_eq_true',
    Bool.and_eq_false_iff, decide_eq_false_iff_not, not_le, not_lt]
  rw [if_neg (by omega), if_neg (by omega), if_neg (by omega), if_neg (by omega),
    if_neg (by omega), if_neg (by omega)]

/-! ### Theorems: status-code dispatch (C1), Retry-After (C7) -/

/-- C1: for every HTTP response received by `InlineClient.request`, the
status-code dispatch yields `AuthenticationError` on 401,
`AuthorizationError` on 403, `NotFoundError` on 404, `RateLimitError` on 429,
`ServerError` carrying the actual status on any status >= 500, `ApiError` on
any other non-2xx status, and no error (the parsed body) on a 2xx status —
matching the strict check order 401, 403, 404, 429, >=500, not-ok. -/
theorem dispatch_status_order (r : HttpResponse) :
    (r.status = 401 →
      classifyResponse r = .error (.authenticationError "Invalid or expired token")) ∧
    (r.status = 403 →
      classifyResponse r = .error (.authorizationError "Not authorized to access this resource")) ∧
    (r.status = 404 →
      classifyResponse r = .error (.notFoundError "Resource not found")) ∧
    (r.status = 429 →
      classifyResponse r = .error (.rateLimitError "Rate limited" (retryAfterValue r.retryAfterHeader))) ∧
    (500 ≤ r.status →
      classifyResponse r = .error (.serverError ("Server error: " ++ strOr r.bodyText r.statusText) r.status)) ∧
    (¬ (200 ≤ r.status ∧ r.status < 300) → r.status ≠ 401 → r.status ≠ 403 →
      r.status ≠ 404 → r.status ≠ 429 → r.status < 500 →
      classifyResponse r = .error (.apiError ("API error: " ++ strOr r.bodyText r.statusText) r.status r.bodyText)) ∧
    (200 ≤ r.status ∧ r.status < 300 → classifyResponse r = .ok r.bodyJson) := by
  simp only [classifyResponse, respOk, beq_iff_eq, Bool.not_eq_true', Bool.and_eq_false_iff,
    decide_eq_false_iff_not, not_le, not_lt]
  refine ⟨?_, ?_, ?_, ?_, ?_, ?_, ?_⟩ <;> intro h
  · rw [if_pos h]
  · rw [if_neg (by omega), if_pos h]
  · rw [if_neg (by omega), if_neg (by omega), if_pos h]
  · rw [if_neg (by omega), if_neg (by omega), if_neg (by omega), if_pos h]
  · rw [if_neg (by omega), if_neg (by omega), if_neg (by omega), if_neg (by omega),
      if_pos (by omega)]
  · intro h2 h3 h4 h5 h6
    rw [if_neg (by omega), if_neg (by omega), if_neg (by omega), if_neg (by omega),
      if_neg (by omega), if_pos (by omega)]
  · rw [if_neg (by omega), if_neg (by omega), if_neg (by omega), if_neg (by omega),
      if_neg (by omega), if_neg (by omega)]

/-- Witness for C1: concrete responses for each dispatch class. -/
theorem dispatch_status_order_witness :
    classifyResponse { status := 401 } = .error (.authenticationError "Invalid or expired token") ∧
    classifyResponse { status := 403 } = .error (.authorizationError "Not authorized to access this resource") ∧
    classifyResponse { status := 404 } = .error (.notFoundError "Resource not found") ∧
    classifyResponse { status := 429 } = .error (.rateLimitError "Rate limited" none) ∧
    classifyResponse { status := 503, bodyText := "boom" } = .error (.serverError ("Server error: " ++ strOr "boom" "") 503) ∧
    classifyResponse { status := 400, bodyText := "bad" } = .error (.apiError ("API error: " ++ strOr "bad" "") 400 "bad") ∧
    classifyResponse { status := 200, bodyJson := .bool true } = .ok (.bool true) :=
  ⟨(dispatch_status_order { status := 401 }).1 rfl,
   (dispatch_status_order { status := 403 }).2.1 rfl,
   (dispatch_status_order { status := 404 }).2.2.1 rfl,
   (dispatch_status_order { status := 429 }).2.2.2.1 rfl,
   (dispatch_status_order { status := 503, bodyText := "boom" }).2.2.2.2.1 (by decide),
   (dispatch_status_order { status := 400, bodyText := "bad" }).2.2.2.2.2.1
     (by decide) (by decide) (by decide) (by decide) (by decide) (by decide),
   (dispatch_status_order { status := 200, bodyJson := .bool true }).2.2.2.2.2.2 (by decide)⟩

/-- C7: a 429 response with `Retry-After: 60` throws a `RateLimitError` whose
`retryAfter` is the integer 60; more generally any present header value that
`parseInt` reads as an integer is carried over, and an absent header yields
`retryAfter = undefined` (modelled as `none`), not zero. -/
theorem rateLimit_retryAfter (r : HttpResponse) (h429 : r.status = 429) :
    (r.retryAfterHeader = some "60" →
      classifyResponse r = .error (.rateLimitError "Rate limited" (some (.int 60)))) ∧
    (∀ s n, r.retryAfterHeader = some s → s ≠ "" → parseIntJS s = .int n →
      classifyResponse r = .error (.rateLimitError "Rate limited" (some (.int n)))) ∧
    (r.retryAfterHeader = none →
      classifyResponse r = .error (.rateLimitError "Rate limited" none)) := by
  have hbase := classifyResponse_429 r h429
  refine ⟨?_, ?_, ?_⟩
  · intro h
    rw [hbase, h]
    have : parseIntJS "60" = .int 60 := by decide
    simp [retryAfterValue, this]
  · intro s n hs hne hparse
    rw [hbase, hs]
    simp [retryAfterValue, hne, hparse]
  · intro h
    rw [hbase, h]
    rfl

/-- Witness for C7: a concrete 429 response with the header present and one
with it absent. -/
theorem rateLimit_retryAfter_witness :
    classifyResponse { status := 429, retryAfterHeader := some "60" } =
      .error (.rateLimitError "Rate limited" (some (.int 60))) ∧
    classifyResponse { status := 429 } =
      .error (.rateLimitError "Rate limited" none) :=
  ⟨(rateLimit_retryAfter { status := 429, retryAfterHeader := some "60" } rfl).1 rfl,
   (rateLimit_retryAfter { status := 429 } rfl).2.2 rfl⟩

/-! ### Theorems: exception classification (C4) -/

/-- C4 counterexample: the catch clause of `InlineClient.request` rethrows a
non-`TypeError` exception (here an `AbortError`, the exception an aborted
fetch raises in common runtimes) unchanged instead of wrapping it as
`NetworkError`, refuting the claim that every exception that is not an
already-classified client error is wrapped as `NetworkError`. -/
theorem exception_wrap_cex :
    classifyException (.otherError "AbortError" "The operation was aborted") =
      .otherError "AbortError" "The operation was aborted" ∧
    classifyException (.otherError "AbortError" "The operation was aborted") ≠
      .inlineErr (.networkError "Network error") := by
  constructor
  · rfl
  · simp [classifyException]

/-- C4 amended: the catch clause wraps an exception as
`NetworkError("Network error")` exactly when it is a `TypeError` (the shape
the timeout/abort takes in the runtimes the test suite models); a classified
`InlineError`, any other `Error`, and any non-Error thrown value all
propagate unchanged. -/
theorem exception_classification (err : InlineErr) (m n : String) (v : JsonValue) :
    classifyException (.inlineErr err) = .inlineErr err ∧
    classifyException (.typeError m) = .inlineErr (.networkError "Network error") ∧
    classifyException (.otherError n m) = .otherError n m ∧
    classifyException (.nonError v) = .nonError v :=
  ⟨rfl, rfl, rfl, rfl⟩

/-! ### Theorems: empty-identifier validation (C3) -/

/-- C3: `getMessage`, `retryMessage`, `getErrorsByCode` and `cancelMessage`
called with the empty string throw `ValidationError` before dispatch, and the
injected transport receives zero calls. -/
theorem empty_id_validation :
    getMessage "" = .error (.validationError "messageId is required") ∧
    transportCalls (getMessage "") = 0 ∧
    retryMessage "" = .error (.validationError "messageId is required") ∧
    transportCalls (retryMessage "") = 0 ∧
    getErrorsByCode "" = .error (.validationError "code is required") ∧
    transportCalls (getErrorsByCode "") = 0 ∧
    cancelMessage "" = .error (.validationError "messageId is required") ∧
    transportCalls (cancelMessage "") = 0 :=
  ⟨rfl, rfl, rfl, rfl, rfl, rfl, rfl, rfl⟩

/-! ### Theorems: publish request building (C5, C6) -/

/-- C5: `publish` with a method that uppercases to GET and options
`{delay: "5m", headers: {"X-A": "1"}}` issues a GET request to
`/publish/<url-encoded callback>` whose query parameters are exactly
`Queue-Delay=5m`, `Queue-Method=GET`, `Queue-Forward-X-A=1`, with no request
body; and on any GET-branch publish the `Queue-Method` parameter is present
exactly because an explicit (truthy) method was given in the options. -/
theorem publish_get_query (url m : String) (p : List (String × JsonValue))
    (hurl : url ≠ "") (hm : m ≠ "") (hup : jsToUpper m = "GET") :
    publish url p (some { method := some m, delay := some "5m",
                          headers := some [("X-A", "1")] }) =
      .ok { method := "GET", path := "/publish/" ++ encodeURIComponent url,
            query := [("Queue-Delay", "5m"), ("Queue-Method", "GET"),
                      ("Queue-Forward-X-A", "1")],
            body := none } ∧
    (∀ (o : PublishOptions) (r : RequestDescriptor),
      publish url p (some o) = .ok r → r.method = "GET" →
      hasKey r.query "Queue-Method" = true ∧ optTruthy o.method = true) := by
  constructor
  · simp only [publish]
    rw [if_neg hurl]
    simp [Option.some_bind, hm, hup, optTruthy, assignOpt, setEntry]
  · intro o r hpub hmet
    simp only [publish] at hpub
    rw [if_neg hurl] at hpub
    simp only [Option.some_bind] at hpub
    rcases homet : o.method with _ | m'
    · simp only [homet] at hpub
      rw [if_neg (show ("POST" : String) ≠ "GET" by decide)] at hpub
      simp only [Except.ok.injEq] at hpub
      rw [← hpub] at hmet
      simp at hmet
    · simp only [homet] at hpub
      by_cases hm0 : m' = ""
      · simp only [if_pos hm0] at hpub
        rw [if_neg (show ("POST" : String) ≠ "GET" by decide)] at hpub
        simp only [Except.ok.injEq] at hpub
        rw [← hpub] at hmet
        simp at hmet
      · simp only [if_neg hm0] at hpub
        have hmg : optTruthy (some m') = true := by simp [optTruthy, hm0]
        by_cases hup0 : jsToUpper m' = "GET"
        · simp only [hup0] at hpub
          simp only [if_true] at hpub
          simp only [Except.ok.injEq] at hpub
          rw [← hpub]
          refine ⟨?_, hmg⟩
          rcases hh : o.headers with _ | hs
          · simp only [hh, hmg, if_true]
            rw [hasKey_setEntry]
            simp
          · simp only [hh, hmg, if_true]
            exact hasKey_foldl_setEntry hs _ _ _ _
              (by rw [hasKey_setEntry]; simp)
        · rw [if_neg hup0] at hpub
          simp only [Except.ok.injEq] at hpub
          rw [← hpub] at hmet
          exact absurd hmet hup0

/-- Witness for C5: the concrete GET publish of the claim, with the callback
URL percent-encoding evaluated. -/
theorem publish_get_query_witness :
    encodeURIComponent "https://example.com/hook" = "https%3A%2F%2Fexample.com%2Fhook" ∧
    publish "https://example.com/hook" []
        (some { method := some "GET", delay := some "5m",
                headers := some [("X-A", "1")] }) =
      .ok { method := "GET",
            path := "/publish/" ++ encodeURIComponent "https://example.com/hook",
            query := [("Queue-Delay", "5m"), ("Queue-Method", "GET"),
                      ("Queue-Forward-X-A", "1")],
            body := none } :=
  ⟨by decide,
   (publish_get_query "https://example.com/hook" "GET" [] (by decide) (by decide)
     (by decide)).1⟩

/-- C6: for a non-GET publish the body is built by spreading the caller
payload first and then assigning the reserved `Queue-*` fields, so a reserved
key's final value is the one derived from the options whatever the payload
contained; in particular publish with the default method, payload `{a: 1}`
and headers `{"X-A": "1"}` produces a POST body exactly
`{"a": 1, "Queue-Forward-X-A": "1"}` with no scheduling fields. -/
theorem publish_body_precedence (url : String) (hurl : url ≠ "") :
    publish url [("a", .num 1)] (some { headers := some [("X-A", "1")] }) =
      .ok { method := "POST", path := "/publish/" ++ encodeURIComponent url,
            query := [], body := some [("a", .num 1), ("Queue-Forward-X-A", .str "1")] } ∧
    (∀ (p : List (String × JsonValue)) (o : PublishOptions) (r : RequestDescriptor)
       (b : List (String × JsonValue)),
      publish url p (some o) = .ok r → r.body = some b →
      (∀ d, o.delay = some d → d ≠ "" →
        lookupEntry b "Queue-Delay" = some (.str d)) ∧
      (∀ nb, o.notBefore = some nb → nb ≠ "" →
        lookupEntry b "Queue-notBefore" = some (.str nb)) ∧
      (∀ tz, o.timezone = some tz → tz ≠ "" →
        lookupEntry b "Queue-timezone" = some (.str tz)) ∧
      (∀ m, o.method = some m → m ≠ "" →
        lookupEntry b "Queue-Method" = some (.str (jsToUpper m))) ∧
      (∀ k v, o.headers = some [(k, v)] →
        lookupEntry b ("Queue-Forward-" ++ k) = some (.str v))) := by
  constructor
  · simp only [publish]
    rw [if_neg hurl]
    simp [Option.some_bind, optTruthy, assignOpt, setEntry]
  · intro p o r b hpub hbody
    simp only [publish] at hpub
    rw [if_neg hurl] at hpub
    simp only [Option.some_bind] at hpub
    split at hpub
    · simp only [Except.ok.injEq] at hpub
      rw [← hpub] at hbody
      simp at hbody
    · simp only [Except.ok.injEq] at hpub
      rw [← hpub] at hbody
      simp only [Option.some.injEq] at hbody
      subst hbody
      refine ⟨?_, ?_, ?_, ?_, ?_⟩
      · intro d hd hd0
        rw [lookup_ite_setEntry_ne _ _ _ _ _
              (show ("Queue-Method" : String) ≠ "Queue-Delay" by decide),
            lookup_assignOpt_ne _ _ _ _ _
              (show ("Queue-timezone" : String) ≠ "Queue-Delay" by decide),
            lookup_assignOpt_ne _ _ _ _ _
              (show ("Queue-notBefore" : String) ≠ "Queue-Delay" by decide),
            hd]
        exact lookup_assignOpt_self _ _ _ _ hd0
      · intro nb hnb hnb0
        rw [lookup_ite_setEntry_ne _ _ _ _ _
              (show ("Queue-Method" : String) ≠ "Queue-notBefore" by decide),
            lookup_assignOpt_ne _ _ _ _ _
              (show ("Queue-timezone" : String) ≠ "Queue-notBefore" by decide),
            hnb]
        exact lookup_assignOpt_self _ _ _ _ hnb0
      · intro tz htz htz0
        rw [lookup_ite_setEntry_ne _ _ _ _ _
              (show ("Queue-Method" : String) ≠ "Queue-timezone" by decide),
            htz]
        exact lookup_assignOpt_self _ _ _ _ htz0
      · intro m1 hm1 hm10
        simp only [hm1]
        have hmg : optTruthy (some m1) = true := by simp [optTruthy, hm10]
        rw [hmg, if_pos rfl, if_neg hm10]
        exact lookup_setEntry_self _ _ _
      · intro k v hh
        simp only [hh, List.foldl_cons, List.foldl_nil]
        rw [lookup_ite_setEntry_ne _ _ _ _ _ (Ne.symm (queueForward_ne_method k)),
            lookup_assignOpt_ne _ _ _ _ _ (Ne.symm (queueForward_ne_timezone k)),
            lookup_assignOpt_ne _ _ _ _ _ (Ne.symm (queueForward_ne_notBefore k)),
            lookup_assignOpt_ne _ _ _ _ _ (Ne.symm (queueForward_ne_delay k))]
        exact lookup_setEntry_self _ _ _

/-- Witness for C6: the concrete default-method publish of the claim, and the
precedence conclusion at a payload that tries to smuggle its own
`Queue-Delay` field past options `{delay: "5m"}`. -/
theorem publish_body_precedence_witness :
    publish "https://example.com/hook" [("a", .num 1)] (some { headers := some [("X-A", "1")] }) =
      .ok { method := "POST",
            path := "/publish/" ++ encodeURIComponent "https://example.com/hook",
            query := [], body := some [("a", .num 1), ("Queue-Forward-X-A", .str "1")] } ∧
    lookupEntry [("Queue-Delay", JsonValue.str "5m")] "Queue-Delay" =
      some (JsonValue.str "5m") :=
  ⟨(publish_body_precedence "https://example.com/hook" (by decide)).1,
   (((publish_body_precedence "https://example.com/hook" (by decide)).2
      [("Queue-Delay", JsonValue.str "evil")] { delay := some "5m" }
      { method := "POST", path := "/publish/" ++ encodeURIComponent "https://example.com/hook",
        query := [], body := some [("Queue-Delay", JsonValue.str "5m")] }
      [("Queue-Delay", JsonValue.str "5m")] rfl rfl).1 "5m" rfl (by decide))⟩


/-! ### Theorems: error-list projection (C10) -/

/-- C10: on a successful (2xx) JSON response with body `b`, `getErrorsByCode`
and `getMessageErrors` return only `b.errors`, discarding the `summary` field
along with the rest of the body, while the other operations (`getMessage`,
`retryMessage`, `getHealth` as representatives) return the full parsed body
as-is. -/
theorem errors_projection (code mid : String) (r : HttpResponse)
    (hc : code ≠ "") (hm : mid ≠ "") (h2xx : 200 ≤ r.status ∧ r.status < 300) :
    getErrorsByCodeRun code r = .ok (jsField r.bodyJson "errors") ∧
    getMessageErrorsRun mid r = .ok (jsField r.bodyJson "errors") ∧
    getMessageRun mid r = .ok r.bodyJson ∧
    retryMessageRun mid r = .ok r.bodyJson ∧
    getHealthRun r = .ok r.bodyJson := by
  have hok := classifyResponse_ok r h2xx
  refine ⟨?_, ?_, ?_, ?_, ?_⟩
  · simp [getErrorsByCodeRun, runRequest, getErrorsByCode, hc, hok, Except.map]
  · simp [getMessageErrorsRun, runRequest, getMessageErrors, hm, hok, Except.map]
  · simp [getMessageRun, runRequest, getMessage, hm, hok]
  · simp [retryMessageRun, runRequest, retryMessage, hm, hok]
  · simp [getHealthRun, runRequest, getHealth, hok]

/-- Witness for C10: a concrete 200 response whose body has both a `summary`
and an `errors` field. -/
theorem errors_projection_witness :
    getErrorsByCodeRun "TIMEOUT"
      { status := 200,
        bodyJson := .obj [("summary", .obj [("count", .num 3)]), ("errors", .arr [])] } =
      .ok (jsField (.obj [("summary", .obj [("count", .num 3)]), ("errors", .arr [])]) "errors") ∧
    getMessageRun "message_000004QYYDCF9PHB9C6VWVHZEZ"
      { status := 200,
        bodyJson := .obj [("summary", .obj [("count", .num 3)]), ("errors", .arr [])] } =
      .ok (.obj [("summary", .obj [("count", .num 3)]), ("errors", .arr [])]) ∧
    jsField (.obj [("summary", .obj [("count", .num 3)]), ("errors", .arr [])]) "errors" =
      .arr [] :=
  ⟨(errors_projection "TIMEOUT" "message_000004QYYDCF9PHB9C6VWVHZEZ"
      { status := 200,
        bodyJson := .obj [("summary", .obj [("count", .num 3)]), ("errors", .arr [])] }
      (by decide) (by decide) (by decide)).1,
   (errors_projection "TIMEOUT" "message_000004QYYDCF9PHB9C6VWVHZEZ"
      { status := 200,
        bodyJson := .obj [("summary", .obj [("count", .num 3)]), ("errors", .arr [])] }
      (by decide) (by decide) (by decide)).2.2.1,
   rfl⟩


/-! ### Theorems: message-identifier validation (C2) -/

/-- Two strings with the same character data are equal. -/
theorem string_data_inj {s t : String} (h : s.data = t.data) : s = t := by
  cases s
  cases t
  simp only at h
  rw [h]

/-- Characterization of the message-ID matcher: it accepts exactly the
character lists of the form `message_` followed by one character in `[0-7]`
and 25 characters of the restricted alphabet. -/
theorem msgIdChars_iff (l : List Char) :
    msgIdChars l = true ↔
      ∃ c0 cs, l = 'm' :: 'e' :: 's' :: 's' :: 'a' :: 'g' :: 'e' :: '_' :: c0 :: cs ∧
        ('0' ≤ c0 ∧ c0 ≤ '7') ∧ cs.length = 25 ∧ ∀ c ∈ cs, isUlidChar c = true := by
  constructor
  · intro h
    unfold msgIdChars at h
    split at h
    · rename_i c0 rest
      simp only [Bool.and_eq_true, decide_eq_true_eq, beq_iff_eq, List.all_eq_true] at h
      exact ⟨c0, rest, rfl, ⟨h.1.1.1, h.1.1.2⟩, h.1.2, h.2⟩
    · simp at h
  · rintro ⟨c0, cs, rfl, ⟨h1, h2⟩, hlen, hall⟩
    simp only [msgIdChars, Bool.and_eq_true, decide_eq_true_eq, beq_iff_eq,
      List.all_eq_true]
    exact ⟨⟨⟨h1, h2⟩, hlen⟩, hall⟩

/-- C2 counterexample: a string made of the literal prefix `message_`
followed by exactly 25 characters — the first in `[0-7]`, all from the
restricted alphabet, exactly the shape the claim says is accepted — is
rejected by `parseMessageId` (the regex demands 26 characters after the
prefix: `[0-7]` then 25 more). -/
theorem messageId_claim_cex :
    parseMessageIdOk "message_0000000000000000000000000" = false ∧
    ("message_0000000000000000000000000".data.drop 8).length = 25 ∧
    ("message_0000000000000000000000000".data.drop 8).all isUlidChar = true ∧
    ('0' ≤ '0' && '0' ≤ '7') = true := by
  decide

/-- C2 amended: the validator accepts exactly the strings of the form
`message_` followed by 26 characters — the first in `[0-7]`, the remaining 25
drawn from the restricted 32-symbol alphabet; consequently any deviation
(wrong prefix, out-of-range first character, invalid or lowercase character,
wrong length) is rejected. -/
theorem messageId_regex (c0 : Char) (cs : List Char)
    (h0 : '0' ≤ c0 ∧ c0 ≤ '7') (hlen : cs.length = 25)
    (hall : ∀ c ∈ cs, isUlidChar c = true) :
    parseMessageIdOk ("message_" ++ String.mk (c0 :: cs)) = true ∧
    (∀ s : String, parseMessageIdOk s = true →
      ∃ c0' cs', s = "message_" ++ String.mk (c0' :: cs') ∧
        ('0' ≤ c0' ∧ c0' ≤ '7') ∧ cs'.length = 25 ∧
        ∀ c ∈ cs', isUlidChar c = true) := by
  constructor
  · unfold parseMessageIdOk
    rw [show ("message_" ++ String.mk (c0 :: cs)).data =
        'm' :: 'e' :: 's' :: 's' :: 'a' :: 'g' :: 'e' :: '_' :: c0 :: cs from by
      rw [String.data_append]
      rfl]
    exact (msgIdChars_iff _).2 ⟨c0, cs, rfl, h0, hlen, hall⟩
  · intro s hs
    obtain ⟨c0', cs', hdata, h0', hlen', hall'⟩ := (msgIdChars_iff s.data).1 hs
    have hr : ("message_" ++ String.mk (c0' :: cs')).data =
        'm' :: 'e' :: 's' :: 's' :: 'a' :: 'g' :: 'e' :: '_' :: c0' :: cs' := by
      rw [String.data_append]
      rfl
    exact ⟨c0', cs', string_data_inj (hdata.trans hr.symm), h0', hlen', hall'⟩

/-- Witness for C2 (amended): the documented example identifier
`message_000004QYYDCF9PHB9C6VWVHZEZ` is accepted. -/
theorem messageId_regex_witness :
    parseMessageIdOk ("message_" ++ String.mk ('0' :: "00004QYYDCF9PHB9C6VWVHZEZ".data)) = true ∧
    "message_" ++ String.mk ('0' :: "00004QYYDCF9PHB9C6VWVHZEZ".data) =
      "message_000004QYYDCF9PHB9C6VWVHZEZ" :=
  ⟨(messageId_regex '0' "00004QYYDCF9PHB9C6VWVHZEZ".data (by decide) (by decide)
      (by decide)).1,
   by decide⟩

/-! ### Theorems: timestamp validation (C8) -/

theorem monthDays_le (y m : Nat) : monthDays y m ≤ 31 := by
  unfold monthDays
  split
  · split <;> omega
  · split <;> omega

theorem toNat_ofNat_digit (k : Nat) (h : k < 10) : (Char.ofNat (48 + k)).toNat = 48 + k := by
  have hv : (48 + k).isValidChar := Or.inl (by omega)
  simp [Char.ofNat, hv, Char.ofNatAux, Char.toNat]
  rfl

theorem isDigitChar_digit (k : Nat) (h : k < 10) :
    isDigitChar (Char.ofNat (48 + k)) = true := by
  simp [isDigitChar, toNat_ofNat_digit k h]
  omega

theorem dval_digit (k : Nat) (h : k < 10) : dval (Char.ofNat (48 + k)) = k := by
  simp [dval, toNat_ofNat_digit k h]

theorem fracTailChars_append (ds : List Char)
    (hds : ∀ c ∈ ds, isDigitChar c = true) : fracTailChars (ds ++ ['Z']) = true := by
  induction ds with
  | nil => rfl
  | cons c t ih =>
      have hc := hds c (by simp)
      have hcz : (c == 'Z') = false := by
        by_cases hz : c = 'Z'
        · rw [hz] at hc
          exact absurd hc (by decide)
        · simp [hz]
      simp only [List.cons_append, fracTailChars, hcz, Bool.false_eq_true, if_false, hc,
        Bool.true_and]
      exact ih (fun c' hc' => hds c' (by simp [hc']))

theorem zodTailChars_frac (ds : List Char) (hne : ds ≠ [])
    (hds : ∀ c ∈ ds, isDigitChar c = true) :
    zodTailChars ('.' :: ds ++ ['Z']) = true := by
  cases ds with
  | nil => exact absurd rfl hne
  | cons c t =>
      simp only [List.cons_append, zodTailChars, Bool.and_eq_true]
      exact ⟨hds c (by simp), fracTailChars_append t (fun c' hc' => hds c' (by simp [hc']))⟩

theorem zodDatetimeChars_build (y mo d h mi se : Nat) (tail : List Char)
    (hy : y ≤ 9999) (hmo : 1 ≤ mo ∧ mo ≤ 12) (hd : 1 ≤ d ∧ d ≤ monthDays y mo)
    (hh : h ≤ 23) (hmi : mi ≤ 59) (hse : se ≤ 59)
    (htail : zodTailChars tail = true) :
    zodDatetimeChars (pad4 y ++ '-' :: pad2 mo ++ '-' :: pad2 d ++ 'T' :: pad2 h ++
      ':' :: pad2 mi ++ ':' :: pad2 se ++ tail) = true := by
  have hd31 : d ≤ 31 := le_trans hd.2 (monthDays_le y mo)
  have e1 := dval_digit (y / 1000) (by omega)
  have e2 := dval_digit ((y / 100) % 10) (by omega)
  have e3 := dval_digit ((y / 10) % 10) (by omega)
  have e4 := dval_digit (y % 10) (by omega)
  have e5 := dval_digit (mo / 10) (by omega)
  have e6 := dval_digit (mo % 10) (by omega)
  have e7 := dval_digit (d / 10) (by omega)
  have e8 := dval_digit (d % 10) (by omega)
  have e9 := dval_digit (h / 10) (by omega)
  have e10 := dval_digit (h % 10) (by omega)
  have e11 := dval_digit (mi / 10) (by omega)
  have e12 := dval_digit (mi % 10) (by omega)
  have e13 := dval_digit (se / 10) (by omega)
  have e14 := dval_digit (se % 10) (by omega)
  have hyy : y / 1000 * 1000 + (y / 100) % 10 * 100 + (y / 10) % 10 * 10 + y % 10 = y := by
    omega
  have hmo2 : mo / 10 * 10 + mo % 10 = mo := by omega
  have hd2 : d / 10 * 10 + d % 10 = d := by omega
  have hh2 : h / 10 * 10 + h % 10 = h := by omega
  have hmi2 : mi / 10 * 10 + mi % 10 = mi := by omega
  have hse2 : se / 10 * 10 + se % 10 = se := by omega
  simp only [pad4, pad2, List.cons_append, List.nil_append, zodDatetimeChars,
    isDigitChar_digit _ (by omega : y / 1000 < 10),
    isDigitChar_digit _ (by omega : (y / 100) % 10 < 10),
    isDigitChar_digit _ (by omega : (y / 10) % 10 < 10),
    isDigitChar_digit _ (by omega : y % 10 < 10),
    isDigitChar_digit _ (by omega : mo / 10 < 10),
    isDigitChar_digit _ (by omega : mo % 10 < 10),
    isDigitChar_digit _ (by omega : d / 10 < 10),
    isDigitChar_digit _ (by omega : d % 10 < 10),
    isDigitChar_digit _ (by omega : h / 10 < 10),
    isDigitChar_digit _ (by omega : h % 10 < 10),
    isDigitChar_digit _ (by omega : mi / 10 < 10),
    isDigitChar_digit _ (by omega : mi % 10 < 10),
    isDigitChar_digit _ (by omega : se / 10 < 10),
    isDigitChar_digit _ (by omega : se % 10 < 10),
    e1, e2, e3, e4, e5, e6, e7, e8, e9, e10, e11, e12, e13, e14,
    hyy, hmo2, hd2, hh2, hmi2, hse2, htail,
    Bool.true_and, Bool.and_true, Bool.and_eq_true, decide_eq_true_eq]
  exact ⟨⟨⟨⟨⟨⟨hmo.1, hmo.2⟩, hd.1⟩, hd.2⟩, hh⟩, hmi⟩, hse⟩

theorem zodDatetimeChars_all_digits (l : List Char)
    (h : ∀ c ∈ l, isDigitChar c = true) : zodDatetimeChars l = false := by
  cases hz : zodDatetimeChars l
  · rfl
  · exfalso
    unfold zodDatetimeChars at hz
    split at hz
    · rename_i y1 y2 y3 y4 m1 m2 d1 d2 h1 h2 i1 i2 s1 s2 rest
      have := h '-' (by simp)
      exact absurd this (by decide)
    · exact absurd hz (by simp)

theorem zodDatetimeChars_no_T (l : List Char) (h : 'T' ∉ l) :
    zodDatetimeChars l = false := by
  cases hz : zodDatetimeChars l
  · rfl
  · exfalso
    unfold zodDatetimeChars at hz
    split at hz
    · rename_i y1 y2 y3 y4 m1 m2 d1 d2 h1 h2 i1 i2 s1 s2 rest
      exact h (by simp)
    · exact absurd hz (by simp)

/-- C8: the timestamp validator accepts every strict ISO-8601 UTC timestamp
`YYYY-MM-DDTHH:MM:SS[.fff]Z` (valid calendar date, hour 00-23,
minute/second 00-59, optional nonempty fractional-second digits, mandatory
`Z`); and it rejects every all-digit string (numeric epochs) and every string
not containing a `T` separator (date-only strings, space-separated
strings). -/
theorem timestamp_validator (y mo d h mi se : Nat) (frac : Option (List Char))
    (hy : y ≤ 9999) (hmo : 1 ≤ mo ∧ mo ≤ 12) (hd : 1 ≤ d ∧ d ≤ monthDays y mo)
    (hh : h ≤ 23) (hmi : mi ≤ 59) (hse : se ≤ 59)
    (hfrac : ∀ ds, frac = some ds → ds ≠ [] ∧ ∀ c ∈ ds, isDigitChar c = true) :
    isZodDatetime (buildIso y mo d h mi se frac) = true ∧
    (∀ s : String, (∀ c ∈ s.data, isDigitChar c = true) → isZodDatetime s = false) ∧
    (∀ s : String, 'T' ∉ s.data → isZodDatetime s = false) := by
  refine ⟨?_, ?_, ?_⟩
  · cases frac with
    | none =>
        exact zodDatetimeChars_build y mo d h mi se ['Z'] hy hmo hd hh hmi hse rfl
    | some ds =>
        exact zodDatetimeChars_build y mo d h mi se ('.' :: ds ++ ['Z']) hy hmo hd hh hmi hse
          (zodTailChars_frac ds (hfrac ds rfl).1 (hfrac ds rfl).2)
  · intro s hall
    exact zodDatetimeChars_all_digits s.data hall
  · intro s hT
    exact zodDatetimeChars_no_T s.data hT

/-- Witness for C8: the documented timestamp `2025-10-23T10:30:00.000Z` (and
its fraction-free form) is accepted; a numeric epoch, a date-only string and
a space-separated string are rejected. -/
theorem timestamp_validator_witness :
    isZodDatetime (buildIso 2025 10 23 10 30 0 (some ['0', '0', '0'])) = true ∧
    buildIso 2025 10 23 10 30 0 (some ['0', '0', '0']) = "2025-10-23T10:30:00.000Z" ∧
    isZodDatetime (buildIso 2025 10 23 10 30 0 none) = true ∧
    buildIso 2025 10 23 10 30 0 none = "2025-10-23T10:30:00Z" ∧
    isZodDatetime "1729519800" = false ∧
    isZodDatetime "2024-10-21" = false ∧
    isZodDatetime "2024-10-21 14:30:00Z" = false :=
  ⟨(timestamp_validator 2025 10 23 10 30 0 (some ['0', '0', '0']) (by decide) (by decide)
      (by decide) (by decide) (by decide) (by decide)
      (by intro ds hds; cases hds; exact ⟨by decide, by decide⟩)).1,
   by decide,
   (timestamp_validator 2025 10 23 10 30 0 none (by decide) (by decide)
      (by decide) (by decide) (by decide) (by decide)
      (by intro ds hds; cases hds)).1,
   by decide,
   (timestamp_validator 2025 10 23 10 30 0 none (by decide) (by decide)
      (by decide) (by decide) (by decide) (by decide)
      (by intro ds hds; cases hds)).2.1 "1729519800" (by decide),
   (timestamp_validator 2025 10 23 10 30 0 none (by decide) (by decide)
      (by decide) (by decide) (by decide) (by decide)
      (by intro ds hds; cases hds)).2.2 "2024-10-21" (by decide),
   (timestamp_validator 2025 10 23 10 30 0 none (by decide) (by decide)
      (by decide) (by decide) (by decide) (by decide)
      (by intro ds hds; cases hds)).2.2 "2024-10-21 14:30:00Z" (by decide)⟩

/-! ### Theorems: validator round-trip (C9) -/

theorem stable_checkP (pr : JsonValue → Bool) : StableParse (checkP pr) := by
  intro v w h
  unfold checkP at *
  by_cases hp : pr v
  · rw [if_pos hp] at h
    obtain rfl : v = w := by injection h
    rw [if_pos hp]
  · rw [if_neg hp] at h
    cases h

theorem runField_good (fields : List (String × JsonValue)) (fs : FieldSpec)
    (r : List (String × JsonValue)) (hs : StableParse fs.parse)
    (h : runField fields fs = some r) : GoodRes fs r := by
  unfold runField at h
  cases hv : lookupEntry fields fs.key with
  | none =>
      simp only [hv] at h
      by_cases hr : fs.required
      · rw [if_pos hr] at h
        cases h
      · rw [if_neg hr] at h
        injection h with h'
        exact Or.inl ⟨h'.symm, by simpa using hr⟩
  | some v =>
      simp only [hv] at h
      cases hp : fs.parse v with
      | none =>
          rw [hp] at h
          cases h
      | some w =>
          rw [hp] at h
          simp only [Option.map_some'] at h
          injection h with h'
          exact Or.inr ⟨w, h'.symm, hs v w hp⟩

theorem lookupEntry_append_none {α : Type} (a b : List (String × α)) (k : String)
    (h : lookupEntry a k = none) : lookupEntry (a ++ b) k = lookupEntry b k := by
  induction a with
  | nil => simp
  | cons kv rest ih =>
      by_cases hx : (kv.1 == k) = true
      · exfalso
        unfold lookupEntry at h
        simp only [List.find?_cons, hx] at h
        simp at h
      · have hx' : (kv.1 == k) = false := by simpa using hx
        unfold lookupEntry at h ⊢
        simp only [List.find?_cons, hx'] at h ⊢
        rw [List.cons_append]
        simp only [List.find?_cons, hx']
        exact ih h

theorem lookup_flatten_none (specs : List FieldSpec)
    (rs : List (List (String × JsonValue))) (k : String)
    (hgood : List.Forall₂ GoodRes specs rs)
    (hk : ∀ fs ∈ specs, fs.key ≠ k) :
    lookupEntry rs.flatten k = none := by
  induction hgood with
  | nil => rfl
  | cons hxy htail ih =>
      rename_i fs r specs' rs'
      simp only [List.flatten_cons]
      have hr : lookupEntry r k = none := by
        rcases hxy with ⟨rfl, _⟩ | ⟨w, rfl, _⟩
        · rfl
        · have hne : (fs.key == k) = false := by
            simpa using hk fs (by simp)
          unfold lookupEntry
          simp only [List.find?_cons, hne, List.find?_nil]
          rfl
      rw [lookupEntry_append_none _ _ _ hr]
      exact ih (fun fs' hf => hk fs' (by simp [hf]))

theorem mapM_runField_good (specs : List FieldSpec)
    (fields : List (String × JsonValue)) (rs : List (List (String × JsonValue)))
    (hstable : ∀ fs ∈ specs, StableParse fs.parse)
    (h : specs.mapM (runField fields) = some rs) :
    List.Forall₂ GoodRes specs rs := by
  induction specs generalizing rs with
  | nil =>
      simp only [List.mapM_nil, Option.pure_def, Option.some.injEq] at h
      rw [← h]
      exact List.Forall₂.nil
  | cons fs specs' ih =>
      rw [List.mapM_cons] at h
      cases hr : runField fields fs with
      | none =>
          rw [hr] at h
          simp at h
      | some r =>
          rw [hr] at h
          cases hm : specs'.mapM (runField fields) with
          | none =>
              rw [hm] at h
              simp at h
          | some rs' =>
              rw [hm] at h
              simp only [Option.pure_def, Option.bind_eq_bind, Option.some_bind,
                Option.some.injEq] at h
              rw [← h]
              exact List.Forall₂.cons
                (runField_good fields fs r (hstable fs (by simp)) hr)
                (ih rs' (fun f hf => hstable f (by simp [hf])) hm)

theorem mapM_runField_flatten (specs : List FieldSpec)
    (rs : List (List (String × JsonValue))) (pre : List (String × JsonValue))
    (hgood : List.Forall₂ GoodRes specs rs)
    (hnodup : (specs.map FieldSpec.key).Nodup)
    (hpre : ∀ fs ∈ specs, lookupEntry pre fs.key = none) :
    specs.mapM (runField (pre ++ rs.flatten)) = some rs := by
  induction hgood generalizing pre with
  | nil => rfl
  | cons hxy htail ih =>
      rename_i fs r specs' rs'
      simp only [List.map_cons, List.nodup_cons] at hnodup
      have hkey_notin : ∀ fs' ∈ specs', fs'.key ≠ fs.key := by
        intro fs' hf' he
        exact hnodup.1 (he ▸ List.mem_map_of_mem FieldSpec.key hf')
      have hflat' : lookupEntry rs'.flatten fs.key = none :=
        lookup_flatten_none specs' rs' fs.key htail hkey_notin
      have hrlook : ∀ fs' ∈ specs', lookupEntry r fs'.key = none := by
        intro fs' hf'
        rcases hxy with ⟨rfl, _⟩ | ⟨w, rfl, _⟩
        · rfl
        · have hne : (fs.key == fs'.key) = false := by
            simpa using (hkey_notin fs' hf').symm
          unfold lookupEntry
          simp only [List.find?_cons, hne, List.find?_nil]
          rfl
      have hhead : runField (pre ++ (r ++ rs'.flatten)) fs = some r := by
        rcases hxy with ⟨hre, hreq⟩ | ⟨w, hre, hpw⟩
        · subst hre
          unfold runField
          simp only [List.nil_append]
          rw [lookupEntry_append_none pre _ _ (hpre fs (by simp))]
          simp only [hflat']
          rw [if_neg (by simp [hreq])]
        · subst hre
          unfold runField
          rw [lookupEntry_append_none pre _ _ (hpre fs (by simp))]
          have hl : lookupEntry ([(fs.key, w)] ++ rs'.flatten) fs.key = some w := by
            unfold lookupEntry
            rw [List.cons_append]
            simp only [List.find?_cons, beq_self_eq_true]
            rfl
          simp only [hl]
          rw [hpw]
          rfl
      rw [List.mapM_cons]
      simp only [List.flatten_cons]
      rw [hhead]
      have htailm : specs'.mapM (runField (pre ++ (r ++ rs'.flatten))) = some rs' := by
        rw [← List.append_assoc]
        apply ih _ hnodup.2
        intro fs' hf'
        rw [lookupEntry_append_none pre r _ (hpre fs' (by simp [hf']))]
        exact hrlook fs' hf'
      rw [htailm]
      rfl

theorem runObject_stable (specs : List FieldSpec)
    (hnodup : (specs.map FieldSpec.key).Nodup)
    (hstable : ∀ fs ∈ specs, StableParse fs.parse) :
    StableParse (runObject specs) := by
  intro v w h
  cases v with
  | null =>
      simp only [runObject] at h
      exact Option.noConfusion h
  | jsUndefined =>
      simp only [runObject] at h
      exact Option.noConfusion h
  | bool b =>
      simp only [runObject] at h
      exact Option.noConfusion h
  | num n =>
      simp only [runObject] at h
      exact Option.noConfusion h
  | str s =>
      simp only [runObject] at h
      exact Option.noConfusion h
  | arr xs =>
      simp only [runObject] at h
      exact Option.noConfusion h
  | obj fields =>
      simp only [runObject] at h
      cases hm : specs.mapM (runField fields) with
      | none =>
          rw [hm] at h
          simp at h
      | some rs =>
          rw [hm] at h
          simp only [Option.map_some'] at h
          injection h with h'
          have hgood := mapM_runField_good specs fields rs hstable hm
          rw [← h']
          simp only [runObject]
          have := mapM_runField_flatten specs rs [] hgood hnodup (fun _ _ => rfl)
          simp only [List.nil_append] at this
          rw [this]
          rfl

theorem stable_parseCallbackError : StableParse parseCallbackError := by
  refine runObject_stable CallbackErrorSpecs (by decide) ?_
  intro fs hfs
  simp only [CallbackErrorSpecs, List.mem_cons, List.not_mem_nil, or_false] at hfs
  rcases hfs with rfl | rfl | rfl | rfl | rfl | rfl | rfl | rfl <;> exact stable_checkP _

/-- C9 counterexample: a value accepted by the `MessageResponse` validator
but carrying an unknown key `extra` is returned with that key stripped
(zod's default object policy), so the returned object is not equal to the
input. -/
theorem validateMessageResponse_cex :
    validateMessageResponse (.obj (sampleMessageFields ++ [("extra", .bool true)])) =
      some (.obj sampleMessageFields) ∧
    JsonValue.obj sampleMessageFields ≠
      JsonValue.obj (sampleMessageFields ++ [("extra", .bool true)]) := by
  constructor
  · rfl
  · intro hcontra
    have hlen := congrArg
      (fun v => match v with | JsonValue.obj l => l.length | _ => 0) hcontra
    simp [sampleMessageFields] at hlen

/-- C9 amended: validation is idempotent and mutation-free — re-validating
any output of `validateMessageResponse` (equivalently, any accepted value
without unknown keys) returns it unchanged; the validators are pure, so the
input value is never mutated. -/
theorem validateMessageResponse_idempotent (v w : JsonValue)
    (h : validateMessageResponse v = some w) :
    validateMessageResponse w = some w := by
  refine runObject_stable MessageResponseSpecs (by decide) ?_ v w h
  intro fs hfs
  simp only [MessageResponseSpecs, List.mem_cons, List.not_mem_nil, or_false] at hfs
  rcases hfs with rfl | rfl | rfl | rfl | rfl | rfl | rfl | rfl | rfl | rfl | rfl |
    rfl | rfl | rfl | rfl
  all_goals first
    | exact stable_checkP _
    | exact stable_parseCallbackError

/-- Witness for C9 (amended): re-validating the validated sample record
returns it unchanged. -/
theorem validateMessageResponse_idempotent_witness :
    validateMessageResponse (.obj sampleMessageFields) = some (.obj sampleMessageFields) :=
  validateMessageResponse_idempotent
    (.obj (sampleMessageFields ++ [("extra", JsonValue.bool true)]))
    (.obj sampleMessageFields) rfl
